import Mathlib

/-!
Shallow embedding of the pickaxe serialization layer (include/pickaxe.hpp).

The C++ code is a sequential `Serializer` (buffered writer over a `FILE *`)
and a paged `Deserializer` (buffered reader).  We model the underlying
resource as a byte list together with a file position and an end-of-data
flag, exactly mirroring `fseek` / `fread` / `fwrite` semantics on a regular
file:

* `fread(buf, 1, n, f)` returns `min n (length - pos)` bytes, advances the
  position by that amount, and sets the EOF flag exactly when fewer bytes
  than requested were obtained;
* `fseek(f, pos, SEEK_SET)` on a regular file succeeds (also past the end)
  and clears the EOF flag;
* `fwrite` writes all bytes at the current position, zero-filling any gap
  beyond the current end (POSIX semantics);
* `ferror` never becomes true for these pure list-backed operations, so the
  error-branches guarded by `ferror` in the C++ are unreachable in the model.

All `uint64_t` arithmetic of the source is modeled on `Nat` with an explicit
`% 2^64` (`two64`) wherever the C++ computes a 64-bit sum, and with `sub64`
(wrap-around subtraction) wherever the C++ computes a 64-bit difference.
A `memcpy` whose source range leaves the buffer is undefined behavior in C++;
the model makes that observable as the distinguished error `outOfBounds`.
-/

deriving instance DecidableEq for Except

namespace Pickaxe

/-- Modulus of `uint64_t` arithmetic. -/
def two64 : Nat := 2 ^ 64

/-- Wrap-around (`uint64_t`) subtraction `a - b` for `a b < two64`. -/
def sub64 (a b : Nat) : Nat := (a + two64 - b) % two64

/-- Value of `alignof(std::max_align_t)` (the size of the `_zeroes` chunk the
Serializer uses for padding) on the x86-64 target: 16. -/
def num_zeroes : Nat := 16

/-- Effect of `fwrite(data, 1, data.length, f)` on the byte content of a file
whose write position is `p`: bytes `[p, p + data.length)` are replaced by
`data`, a gap beyond the current end is zero-filled (POSIX), and the rest of
the file is unchanged. -/
def storeBytes (c : List Nat) (p : Nat) (data : List Nat) : List Nat :=
  c.take p ++ List.replicate (p - c.length) 0 ++ data ++ c.drop (p + data.length)

/-- Contiguous slice `[p, p + n)` of a byte list. -/
def listSlice (c : List Nat) (p n : Nat) : List Nat := (c.drop p).take n

/-- State of `pickaxe::Serializer`: the logical offset `_offset` plus the
modeled underlying write-only resource (its byte content and the `FILE`
position).  The `DestructorExceptions` pointer and the filename only matter
for error formatting and destruction and are not part of the write model. -/
structure Serializer where
  offset : Nat
  file_content : List Nat
  file_pos : Nat
deriving DecidableEq, Repr

/-- `Serializer::get_offset`. -/
def Serializer.get_offset (s : Serializer) : Nat := s.offset

/-- `Serializer::set_offset`: `fseek(_file, new_offset, SEEK_SET)` (which
succeeds on a regular file) followed by `_offset = new_offset`. -/
def Serializer.set_offset (s : Serializer) (new_offset : Nat) : Serializer :=
  { s with file_pos := new_offset, offset := new_offset }

/-- `Serializer::write(data, size)`: `fwrite` accepts all bytes on the modeled
resource, so the short-write `WriteException` branch is unreachable; then
`_offset += size` in `uint64_t` arithmetic. -/
def Serializer.write (s : Serializer) (data : List Nat) : Serializer :=
  { offset := (s.offset + data.length) % two64
    file_content := storeBytes s.file_content s.file_pos data
    file_pos := s.file_pos + data.length }

/-- The `while (padding > _num_zeroes)` loop of `Serializer::write_aligned`
followed by the final `write(_zeroes, padding)`: emits `padding` zero bytes
in chunks of at most `num_zeroes`. -/
def Serializer.pad_loop (s : Serializer) (padding : Nat) : Serializer :=
  if h : num_zeroes < padding then
    Serializer.pad_loop (s.write (List.replicate num_zeroes 0)) (padding - num_zeroes)
  else
    s.write (List.replicate padding 0)
termination_by padding
decreasing_by simp [num_zeroes] at *; omega

/-- `Serializer::write_aligned(data, size, alignment)`. -/
def Serializer.write_aligned (s : Serializer) (data : List Nat) (alignment : Nat) : Serializer :=
  if s.offset % alignment ≠ 0 then
    (s.pad_loop (alignment - s.offset % alignment)).write data
  else
    s.write data

/-- Errors of the modeled Deserializer.  `invalidPageSize` is
`InvalidPageSizeException`; `insufficientBytes` is the
`ReadException(filename, "not enough remaining bytes at current offset")`
thrown by `Deserializer::read`; `outOfBounds` marks a `memcpy` whose source
range leaves `_read_buffer` (undefined behavior in the C++); `outOfFuel` is
the totality guard of the refill loop, unreachable once the page size is
positive (which the constructor and `set_page_size` enforce). -/
inductive DeserializerError where
  | invalidPageSize
  | insufficientBytes
  | outOfBounds
  | outOfFuel
deriving DecidableEq, Repr

/-- State of `pickaxe::Deserializer` plus its modeled read-only resource. -/
structure Deserializer where
  target_page_size : Nat
  active_page_size : Nat
  file_offset_page_begin : Nat
  file_offset_page_end : Nat
  read_buffer_offset : Nat
  read_buffer : List Nat
  file_content : List Nat
  file_pos : Nat
  file_eof : Bool
deriving DecidableEq, Repr

/-- `Deserializer::Deserializer(exceptions, filename, page_size)`: opening the
file is modeled as always succeeding; a zero page size throws
`InvalidPageSizeException`.  The member initializers give
`_active_page_size = 0`, `_file_offset_page_begin = _file_offset_page_end = 0`,
`_read_buffer_offset = page_size`, and a read buffer of `page_size` zero
bytes. -/
def Deserializer.make (file : List Nat) (page_size : Nat) :
    Except DeserializerError Deserializer :=
  if page_size = 0 then .error .invalidPageSize
  else .ok
    { target_page_size := page_size
      active_page_size := 0
      file_offset_page_begin := 0
      file_offset_page_end := 0
      read_buffer_offset := page_size
      read_buffer := List.replicate page_size 0
      file_content := file
      file_pos := 0
      file_eof := false }

/-- `Deserializer::get_page_size`. -/
def Deserializer.get_page_size (d : Deserializer) : Nat := d.target_page_size

/-- `Deserializer::set_page_size`: rejects 0, otherwise updates the target
page size and grows (never shrinks) the read buffer, new capacity
value-initialized to zero as `std::vector::resize` does. -/
def Deserializer.set_page_size (d : Deserializer) (new_page_size : Nat) :
    Except DeserializerError Deserializer :=
  if new_page_size = 0 then .error .invalidPageSize
  else .ok
    { d with
      target_page_size := new_page_size
      read_buffer :=
        if d.read_buffer.length < new_page_size then
          d.read_buffer ++ List.replicate (new_page_size - d.read_buffer.length) 0
        else d.read_buffer }

/-- `Deserializer::get_offset`: `_file_offset_page_begin + _read_buffer_offset`
in `uint64_t` arithmetic. -/
def Deserializer.get_offset (d : Deserializer) : Nat :=
  (d.file_offset_page_begin + d.read_buffer_offset) % two64

/-- `Deserializer::is_eof`: `std::feof(_file)`. -/
def Deserializer.is_eof (d : Deserializer) : Bool := d.file_eof

/-- `Deserializer::set_offset`: the fast path only moves the buffer cursor;
the slow path seeks the file (always succeeds on a regular file, clearing the
EOF flag), collapses the page range to `[new_offset, new_offset]` and parks
the cursor at `_active_page_size`. -/
def Deserializer.set_offset (d : Deserializer) (new_offset : Nat) : Deserializer :=
  if d.file_offset_page_begin ≤ new_offset ∧
     new_offset < (d.file_offset_page_begin + d.active_page_size) % two64 then
    { d with read_buffer_offset := new_offset - d.file_offset_page_begin }
  else
    { d with
      file_pos := new_offset
      file_eof := false
      file_offset_page_begin := new_offset
      file_offset_page_end := new_offset
      read_buffer_offset := d.active_page_size }

/-- `Deserializer::_read_page`.  First `_active_page_size` is set to
`_target_page_size` when they differ (the accompanying `setvbuf` only
reconfigures stdio buffering and has no observable effect in the model).
Then `fread` obtains `n = min size avail` bytes into the front of the buffer,
advancing the file position and raising the EOF flag exactly when `n < size`.
Because `ferror` is always false here and a short `fread` on a regular file
means EOF, the `ReadException` branch (`ferror || !is_eof()`) is unreachable,
and the function returns `n` after setting
`_file_offset_page_begin = _file_offset_page_end`,
`_file_offset_page_end += n` (in `uint64_t`), `_read_buffer_offset = 0`.
Note that `_active_page_size` itself is left at `_target_page_size`: the
local `size = n;` assignment in the C++ does not write the member back. -/
def Deserializer.read_page (d0 : Deserializer) : Nat × Deserializer :=
  readFrom (if d0.active_page_size ≠ d0.target_page_size then
    { d0 with active_page_size := d0.target_page_size } else d0)
where
  /-- The `fread` and bookkeeping part of `_read_page`, after the
  `_active_page_size` reconfiguration. -/
  readFrom (d : Deserializer) : Nat × Deserializer :=
    (min d.active_page_size (d.file_content.length - d.file_pos),
     { d with
       read_buffer :=
         (d.file_content.drop d.file_pos).take
             (min d.active_page_size (d.file_content.length - d.file_pos)) ++
           d.read_buffer.drop
             (min d.active_page_size (d.file_content.length - d.file_pos))
       file_pos := d.file_pos + min d.active_page_size (d.file_content.length - d.file_pos)
       file_eof := d.file_eof ||
         decide (min d.active_page_size (d.file_content.length - d.file_pos) <
           d.active_page_size)
       file_offset_page_begin := d.file_offset_page_end
       file_offset_page_end :=
         (d.file_offset_page_end +
           min d.active_page_size (d.file_content.length - d.file_pos)) % two64
       read_buffer_offset := 0 })

/-- The `while (_read_buffer_offset + size > _active_page_size)` loop of
`Deserializer::read(dest, size)` plus the final copy.  `fuel` is a totality
guard only: once the page size is positive, every iteration after the first
consumes `target_page_size` outstanding bytes, so `size + 2` calls suffice
(see `Deserializer.read`); the C++ loop would run forever exactly where the
model answers `outOfFuel` (a zero target page size, which the constructor
rejects).  Both `memcpy`s from `_read_buffer` are bounds-checked: a source
range leaving the buffer is undefined behavior in the C++, answered here with
`outOfBounds`. -/
def Deserializer.read_go :
    Nat → Deserializer → Nat → List Nat → Except DeserializerError (List Nat × Deserializer)
  | 0, _, _, _ => .error .outOfFuel
  | fuel + 1, d, size, acc =>
    if (d.read_buffer_offset + size) % two64 > d.active_page_size then
      if d.read_buffer_offset + sub64 d.active_page_size d.read_buffer_offset ≤
          d.read_buffer.length then
        if (d.read_page).1 < (d.read_page).2.active_page_size ∧
            (d.read_page).1 < sub64 size (sub64 d.active_page_size d.read_buffer_offset) then
          .error .insufficientBytes
        else
          Deserializer.read_go fuel (d.read_page).2
            (sub64 size (sub64 d.active_page_size d.read_buffer_offset))
            (acc ++ (d.read_buffer.drop d.read_buffer_offset).take
              (sub64 d.active_page_size d.read_buffer_offset))
      else .error .outOfBounds
    else
      if d.read_buffer_offset + size ≤ d.read_buffer.length then
        .ok (acc ++ (d.read_buffer.drop d.read_buffer_offset).take size,
          { d with read_buffer_offset := (d.read_buffer_offset + size) % two64 })
      else .error .outOfBounds

/-- `Deserializer::read(dest, size)`: the bytes accumulated by the refill
loop, in order. -/
def Deserializer.read (d : Deserializer) (size : Nat) :
    Except DeserializerError (List Nat × Deserializer) :=
  Deserializer.read_go (size + 2) d size []

/-- `Deserializer::read_aligned(dest, size, alignment)`.  The padding is
computed from `_read_buffer_offset % alignment`; when nonzero, either one
page refill is forced (its return value discarded) or the cursor advances by
the padding, and then `read(dest, size)` runs. -/
def Deserializer.read_aligned (d : Deserializer) (size alignment : Nat) :
    Except DeserializerError (List Nat × Deserializer) :=
  if d.read_buffer_offset % alignment ≠ 0 then
    if (d.read_buffer_offset + (alignment - d.read_buffer_offset % alignment)) % two64 >
        d.active_page_size then
      (d.read_page).2.read size
    else
      { d with read_buffer_offset :=
          (d.read_buffer_offset + (alignment - d.read_buffer_offset % alignment)) % two64
        }.read size
  else d.read size

/-- Restatement of `read_aligned` as the specification describes it (claim
C8): the padding is computed from the logical offset `get_offset()` as in the
Writer, `pad = (alignment - get_offset() % alignment) % alignment`; if
`buffer_cursor + pad` would exceed `active_page_size` one refill is forced,
otherwise the cursor advances by `pad`; then `read(size)` runs.  Used only to
compare the specified behavior against the implemented one. -/
def Deserializer.read_aligned_spec (d : Deserializer) (size alignment : Nat) :
    Except DeserializerError (List Nat × Deserializer) :=
  if d.read_buffer_offset + (alignment - d.get_offset % alignment) % alignment >
      d.active_page_size then
    (d.read_page).2.read size
  else
    { d with read_buffer_offset :=
        d.read_buffer_offset + (alignment - d.get_offset % alignment) % alignment
      }.read size

/-- Intended effect of `~Serializer` / `~Deserializer` on the bound
`DestructorExceptions` sink, with sink records identified by the resource
name: when the owned handle is present and `fclose` fails, the caught
`CloseException` for the resource is appended; otherwise the sink is
untouched, and nothing ever propagates out of the destructor.  (The C++
writes `_exceptions->exceptions.push_back(e)` although the sink class
declares its collection member as `close`; the model uses the declared
member, which is the evident intent of the `try`/`catch` body.) -/
def destructorClose (sink : List String) (fileOpen closeFails : Bool)
    (filename : String) : List String :=
  if fileOpen && closeFails then sink ++ [filename] else sink

/-- The padding the alignment algorithm of the Writer inserts before data
written at logical offset `off` with alignment `a`: `0` when `off` is already
aligned, `a - off % a` otherwise. -/
def alignPad (off a : Nat) : Nat := (a - off % a) % a

/-- Write `data` at offset `o` of a file whose current content is `f0`,
with a fresh Serializer: `set_offset(o)` then `write(data)`. -/
def writeAt (f0 : List Nat) (o : Nat) (data : List Nat) : Serializer :=
  (Serializer.set_offset { offset := 0, file_content := f0, file_pos := 0 } o).write data

/-- Read `len` bytes at offset `o` of file `f` through a fresh Deserializer
with page size `p`: construct, `set_offset(o)`, `read(len)`; `none` when any
step fails. -/
def readBack (f : List Nat) (o p len : Nat) : Option (List Nat) :=
  match Deserializer.make f p with
  | .error _ => none
  | .ok d0 =>
    match (d0.set_offset o).read len with
    | .error _ => none
    | .ok (bs, _) => some bs

/-- The 6-byte resource `[A,B,C,D,E,F]` of the specification's concrete
scenario, with `A`..`F` rendered as the bytes `10`..`15`. -/
def sampleFile : List Nat := [10, 11, 12, 13, 14, 15]

/-- The Deserializer state produced by `Deserializer(sink, file, 4)` over
`sampleFile`. -/
def sampleD0 : Deserializer :=
  { target_page_size := 4
    active_page_size := 0
    file_offset_page_begin := 0
    file_offset_page_end := 0
    read_buffer_offset := 4
    read_buffer := [0, 0, 0, 0]
    file_content := sampleFile
    file_pos := 0
    file_eof := false }

/-- The state after `set_offset(0)` and a successful `read(4)` on
`sampleD0`: page `[0,4)` buffered and fully consumed. -/
def sampleMid : Deserializer :=
  { target_page_size := 4
    active_page_size := 4
    file_offset_page_begin := 0
    file_offset_page_end := 4
    read_buffer_offset := 4
    read_buffer := [10, 11, 12, 13]
    file_content := sampleFile
    file_pos := 4
    file_eof := false }

/-- The state reached from `sampleD0` by `set_offset(1)` followed by a
successful `read(2)`: the buffered page covers stream offsets `[1, 5)` and
the cursor sits at buffer offset 2 (logical offset 3). -/
def sampleShifted : Deserializer :=
  { target_page_size := 4
    active_page_size := 4
    file_offset_page_begin := 1
    file_offset_page_end := 5
    read_buffer_offset := 2
    read_buffer := [11, 12, 13, 14]
    file_content := sampleFile
    file_pos := 5
    file_eof := false }

/-- The state reached from `sampleMid` by `set_offset(5)` (slow path) and a
successful `read(1)`. -/
def sampleAfterSeekRead : Deserializer :=
  { target_page_size := 4
    active_page_size := 4
    file_offset_page_begin := 5
    file_offset_page_end := 6
    read_buffer_offset := 1
    read_buffer := [15, 11, 12, 13]
    file_content := sampleFile
    file_pos := 6
    file_eof := true }

/-- The state reached from `sampleMid` by `set_offset(5)`, which takes the
slow path (5 is outside the buffered page `[0, 4)`). -/
def c4_pre : Deserializer := sampleMid.set_offset 5

section ArithmeticLemmas

lemma two64_pos : 0 < two64 := by simp [two64]

lemma mod64_id {a : Nat} (h : a < two64) : a % two64 = a := Nat.mod_eq_of_lt h

lemma mod64_lt (a : Nat) : a % two64 < two64 := Nat.mod_lt _ two64_pos

lemma sub64_of_le {a b : Nat} (hb : b ≤ a) (ha : a < two64) : sub64 a b = a - b := by
  unfold sub64 two64 at *
  omega

end ArithmeticLemmas

section ListLemmas

lemma listSlice_getElem? (l : List Nat) (p n i : Nat) :
    (listSlice l p n)[i]? = if i < n then l[p + i]? else none := by
  unfold listSlice
  split
  · rw [List.getElem?_take_of_lt (by assumption), List.getElem?_drop]
  · apply List.getElem?_eq_none
    simp only [List.length_take, List.length_drop]
    omega

lemma listSlice_length (l : List Nat) (p n : Nat) :
    (listSlice l p n).length = min n (l.length - p) := by
  simp [listSlice, List.length_take, List.length_drop]

lemma takeDrop_eq_listSlice (l : List Nat) (p n : Nat) :
    (l.drop p).take n = listSlice l p n := rfl

lemma slice_eq_of_window {buf cont : List Nat} {pb a : Nat}
    (hwin : ∀ i, i < a → buf[i]? = cont[pb + i]?)
    {r n : Nat} (hrn : r + n ≤ a) :
    (buf.drop r).take n = listSlice cont (pb + r) n := by
  rw [takeDrop_eq_listSlice]
  apply List.ext_getElem?
  intro j
  rw [listSlice_getElem?, listSlice_getElem?]
  split
  · rw [hwin (r + j) (by omega), Nat.add_assoc]
  · rfl

lemma listSlice_append (cont : List Nat) (p m k : Nat) (h : p + m ≤ cont.length) :
    listSlice cont p m ++ listSlice cont (p + m) k = listSlice cont p (m + k) := by
  have hm : (listSlice cont p m).length = m := by rw [listSlice_length]; omega
  apply List.ext_getElem?
  intro j
  by_cases hj : j < m
  · rw [List.getElem?_append_left (by omega), listSlice_getElem?, listSlice_getElem?,
      if_pos hj, if_pos (by omega)]
  · rw [List.getElem?_append_right (by omega), hm, listSlice_getElem?, listSlice_getElem?]
    by_cases hk : j - m < k
    · rw [if_pos hk, if_pos (by omega), show p + m + (j - m) = p + j from by omega]
    · rw [if_neg hk, if_neg (by omega)]

end ListLemmas

section StoreBytesLemmas

lemma storeBytes_length (cont : List Nat) (p : Nat) (d : List Nat) :
    (storeBytes cont p d).length = max cont.length (p + d.length) := by
  simp only [storeBytes, List.length_append, List.length_take, List.length_replicate,
    List.length_drop]
  omega

lemma storeBytes_getElem?_lt {cont : List Nat} {p : Nat} {d : List Nat} {j : Nat} (hj : j < p) :
    (storeBytes cont p d)[j]? = if j < cont.length then cont[j]? else some 0 := by
  unfold storeBytes
  simp only [List.append_assoc]
  by_cases hc : j < cont.length
  · rw [if_pos hc, List.getElem?_append_left (by simp [List.length_take]; omega),
      List.getElem?_take_of_lt hj]
  · rw [if_neg hc,
      List.getElem?_append_right (show (cont.take p).length ≤ j from by
        simp [List.length_take]; omega),
      List.getElem?_append_left (by simp [List.length_take, List.length_replicate]; omega)]
    simp only [List.length_take, List.getElem?_replicate]
    rw [if_pos (by omega)]

lemma storeBytes_getElem?_mid {cont : List Nat} {p : Nat} {d : List Nat} {j : Nat}
    (h1 : p ≤ j) (h2 : j < p + d.length) :
    (storeBytes cont p d)[j]? = d[j - p]? := by
  unfold storeBytes
  simp only [List.append_assoc]
  rw [List.getElem?_append_right (show (cont.take p).length ≤ j from by
      simp [List.length_take]; omega),
    List.getElem?_append_right (show (List.replicate (p - cont.length) (0 : Nat)).length ≤
        j - (cont.take p).length from by
      simp [List.length_take, List.length_replicate]; omega),
    List.getElem?_append_left (by simp [List.length_take, List.length_replicate]; omega)]
  congr 1
  simp only [List.length_take, List.length_replicate]
  omega

lemma storeBytes_getElem?_ge {cont : List Nat} {p : Nat} {d : List Nat} {j : Nat}
    (h : p + d.length ≤ j) :
    (storeBytes cont p d)[j]? = cont[j]? := by
  unfold storeBytes
  simp only [List.append_assoc]
  rw [List.getElem?_append_right (show (cont.take p).length ≤ j from by
      simp [List.length_take]; omega),
    List.getElem?_append_right (show (List.replicate (p - cont.length) (0 : Nat)).length ≤
        j - (cont.take p).length from by
      simp [List.length_take, List.length_replicate]; omega),
    List.getElem?_append_right (show d.length ≤
        j - (cont.take p).length - (List.replicate (p - cont.length) (0 : Nat)).length from by
      simp [List.length_take, List.length_replicate]; omega),
    List.getElem?_drop]
  congr 1
  simp only [List.length_take, List.length_replicate]
  omega

lemma storeBytes_slice (cont : List Nat) (p : Nat) (d : List Nat) :
    listSlice (storeBytes cont p d) p d.length = d := by
  apply List.ext_getElem?
  intro j
  rw [listSlice_getElem?]
  split
  · rw [storeBytes_getElem?_mid (by omega) (by omega)]
    congr 1
    omega
  · exact (List.getElem?_eq_none (by omega)).symm

lemma storeBytes_storeBytes (cont : List Nat) (p : Nat) (xs ys : List Nat) :
    storeBytes (storeBytes cont p xs) (p + xs.length) ys = storeBytes cont p (xs ++ ys) := by
  have hxy : (xs ++ ys).length = xs.length + ys.length := List.length_append xs ys
  have hlen := storeBytes_length cont p xs
  apply List.ext_getElem?
  intro j
  by_cases h1 : j < p
  · rw [storeBytes_getElem?_lt (d := ys) (show j < p + xs.length from by omega),
      storeBytes_getElem?_lt (d := xs ++ ys) h1, hlen]
    by_cases hc : j < cont.length
    · rw [if_pos (by omega), if_pos hc, storeBytes_getElem?_lt h1, if_pos hc]
    · by_cases hx : j < max cont.length (p + xs.length)
      · rw [if_pos hx, if_neg hc, storeBytes_getElem?_lt h1, if_neg hc]
      · rw [if_neg hx, if_neg hc]
  · by_cases h2 : j < p + xs.length
    · rw [storeBytes_getElem?_lt (d := ys) h2,
        storeBytes_getElem?_mid (d := xs ++ ys) (by omega) (by omega), hlen,
        if_pos (by omega), storeBytes_getElem?_mid (by omega) h2,
        List.getElem?_append_left (by omega)]
    · by_cases h3 : j < p + xs.length + ys.length
      · rw [storeBytes_getElem?_mid (d := ys) (by omega) (by omega),
          storeBytes_getElem?_mid (d := xs ++ ys) (by omega) (by omega),
          List.getElem?_append_right (by omega)]
        congr 1
        omega
      · rw [storeBytes_getElem?_ge (d := ys) (by omega),
          storeBytes_getElem?_ge (d := xs ++ ys) (by omega),
          storeBytes_getElem?_ge (by omega)]

end StoreBytesLemmas

section SerializerLemmas

lemma write_write (s : Serializer) (xs ys : List Nat) :
    (s.write xs).write ys = s.write (xs ++ ys) := by
  simp only [Serializer.write, List.length_append]
  congr 1
  · rw [Nat.mod_add_mod]
    congr 1
    omega
  · exact storeBytes_storeBytes _ _ _ _
  · omega

lemma pad_loop_eq_write (padding : Nat) (s : Serializer) :
    s.pad_loop padding = s.write (List.replicate padding 0) := by
  induction padding using Nat.strong_induction_on generalizing s with
  | _ padding ih =>
    rw [Serializer.pad_loop]
    split
    · rename_i hgt
      have hz : 0 < num_zeroes := by simp [num_zeroes]
      rw [ih (padding - num_zeroes) (by omega) _, write_write, ← List.replicate_add]
      congr 2
      omega
    · rfl

end SerializerLemmas

section ReadPageLemmas

lemma read_page_eq (d : Deserializer) :
    d.read_page = (min d.target_page_size (d.file_content.length - d.file_pos),
      { d with
        active_page_size := d.target_page_size
        read_buffer := (d.file_content.drop d.file_pos).take
            (min d.target_page_size (d.file_content.length - d.file_pos)) ++
          d.read_buffer.drop (min d.target_page_size (d.file_content.length - d.file_pos))
        file_pos := d.file_pos + min d.target_page_size (d.file_content.length - d.file_pos)
        file_eof := d.file_eof ||
          decide (min d.target_page_size (d.file_content.length - d.file_pos) <
            d.target_page_size)
        file_offset_page_begin := d.file_offset_page_end
        file_offset_page_end := (d.file_offset_page_end +
          min d.target_page_size (d.file_content.length - d.file_pos)) % two64
        read_buffer_offset := 0 }) := by
  obtain ⟨t, a, pb, pe, rbo, buf, fc, fp, fe⟩ := d
  by_cases h : a = t <;>
    simp [Deserializer.read_page, Deserializer.read_page.readFrom, h]

end ReadPageLemmas

section CursorInvariantLemmas

lemma read_go_ok_cursor_le :
    ∀ (fuel : Nat) (d : Deserializer) (size : Nat) (acc bs : List Nat) (d' : Deserializer),
    Deserializer.read_go fuel d size acc = .ok (bs, d') →
    d'.read_buffer_offset ≤ d'.active_page_size := by
  intro fuel
  induction fuel with
  | zero =>
    intro d size acc bs d' h
    simp [Deserializer.read_go] at h
  | succ n ih =>
    intro d size acc bs d' h
    rw [Deserializer.read_go] at h
    split at h
    · split at h
      · split at h
        · simp at h
        · exact ih _ _ _ _ _ h
      · simp at h
    · rename_i hcond
      split at h
      · simp only [Except.ok.injEq, Prod.mk.injEq] at h
        obtain ⟨-, hd'⟩ := h
        subst hd'
        show (d.read_buffer_offset + size) % two64 ≤ d.active_page_size
        omega
      · simp at h

lemma read_ok_cursor_le {d : Deserializer} {size : Nat} {bs : List Nat} {d' : Deserializer}
    (h : d.read size = .ok (bs, d')) :
    d'.read_buffer_offset ≤ d'.active_page_size :=
  read_go_ok_cursor_le _ _ _ _ _ _ h

lemma read_aligned_ok_cursor_le {d : Deserializer} {size alignment : Nat} {bs : List Nat}
    {d' : Deserializer} (h : d.read_aligned size alignment = .ok (bs, d')) :
    d'.read_buffer_offset ≤ d'.active_page_size := by
  unfold Deserializer.read_aligned at h
  split at h
  · split at h
    · exact read_ok_cursor_le h
    · exact read_ok_cursor_le h
  · exact read_ok_cursor_le h

lemma set_offset_cursor_le (d : Deserializer) (pos : Nat) :
    (d.set_offset pos).read_buffer_offset ≤ (d.set_offset pos).active_page_size := by
  unfold Deserializer.set_offset
  split
  · rename_i hc
    have h2 : (d.file_offset_page_begin + d.active_page_size) % two64 ≤
        d.file_offset_page_begin + d.active_page_size := Nat.mod_le _ _
    show pos - d.file_offset_page_begin ≤ d.active_page_size
    omega
  · show d.active_page_size ≤ d.active_page_size
    exact le_refl _

lemma read_page_cursor_le (d : Deserializer) :
    (d.read_page).2.read_buffer_offset ≤ (d.read_page).2.active_page_size := by
  rw [read_page_eq]
  exact Nat.zero_le _

end CursorInvariantLemmas

section OffsetLemmas

lemma read_go_offset :
    ∀ (fuel : Nat) (d : Deserializer) (size : Nat) (acc bs : List Nat) (d' : Deserializer),
    d.file_offset_page_end = d.file_offset_page_begin + d.active_page_size →
    d.read_buffer_offset ≤ d.active_page_size →
    d.file_offset_page_end + fuel * d.target_page_size + size < two64 →
    Deserializer.read_go fuel d size acc = .ok (bs, d') →
    d'.file_offset_page_begin + d'.read_buffer_offset =
      d.file_offset_page_begin + d.read_buffer_offset + size := by
  intro fuel
  induction fuel with
  | zero =>
    intro d size acc bs d' _ _ _ h4
    simp [Deserializer.read_go] at h4
  | succ n ih =>
    intro d size acc bs d' h1 h2 h3 h4
    rw [Nat.succ_mul] at h3
    have hrs_lt : d.read_buffer_offset + size < two64 := by omega
    rw [Deserializer.read_go, mod64_id hrs_lt] at h4
    by_cases hc : d.read_buffer_offset + size > d.active_page_size
    · rw [if_pos hc] at h4
      have hlead : sub64 d.active_page_size d.read_buffer_offset =
          d.active_page_size - d.read_buffer_offset := sub64_of_le h2 (by omega)
      have hs2 : sub64 size (d.active_page_size - d.read_buffer_offset) =
          size - (d.active_page_size - d.read_buffer_offset) :=
        sub64_of_le (by omega) (by omega)
      rw [hlead, hs2, read_page_eq] at h4
      split at h4
      · split at h4
        · simp at h4
        · rename_i hok hins
          dsimp only at h4 hins
          have hmin_le : min d.target_page_size (d.file_content.length - d.file_pos) ≤
              d.target_page_size := Nat.min_le_left _ _
          have hpe1 : (d.file_offset_page_end +
              min d.target_page_size (d.file_content.length - d.file_pos)) % two64 =
              d.file_offset_page_end +
                min d.target_page_size (d.file_content.length - d.file_pos) :=
            mod64_id (by omega)
          rw [hpe1] at h4
          by_cases hfull :
              min d.target_page_size (d.file_content.length - d.file_pos) =
                d.target_page_size
          · have hres := ih _ _ _ _ _ (by dsimp only; omega) (by dsimp only; omega)
              (by dsimp only; omega) h4
            dsimp only at hres
            omega
          · have hshort : min d.target_page_size (d.file_content.length - d.file_pos) <
                d.target_page_size := by omega
            have hs2le : size - (d.active_page_size - d.read_buffer_offset) ≤
                min d.target_page_size (d.file_content.length - d.file_pos) := by
              rcases Nat.lt_or_ge
                  (min d.target_page_size (d.file_content.length - d.file_pos))
                  (size - (d.active_page_size - d.read_buffer_offset)) with hlt | hge
              · exact absurd ⟨hshort, hlt⟩ hins
              · exact hge
            cases n with
            | zero => simp [Deserializer.read_go] at h4
            | succ m =>
              rw [Deserializer.read_go] at h4
              rw [if_neg (by
                dsimp only
                rw [Nat.zero_add, mod64_id (by omega)]
                omega)] at h4
              split at h4
              · simp only [Except.ok.injEq, Prod.mk.injEq] at h4
                obtain ⟨-, hd'⟩ := h4
                subst hd'
                dsimp only
                rw [Nat.zero_add, mod64_id (by omega)]
                omega
              · simp at h4
      · simp at h4
    · rw [if_neg hc] at h4
      split at h4
      · simp only [Except.ok.injEq, Prod.mk.injEq] at h4
        obtain ⟨-, hd'⟩ := h4
        subst hd'
        dsimp only
        omega
      · simp at h4

end OffsetLemmas

section ReadDataLemmas

lemma read_go_data :
    ∀ (fuel : Nat) (d : Deserializer) (size : Nat) (acc : List Nat),
    d.file_pos = d.file_offset_page_end →
    d.file_offset_page_end = d.file_offset_page_begin + d.active_page_size →
    d.read_buffer_offset ≤ d.active_page_size →
    (∀ i, i < d.active_page_size →
      d.read_buffer[i]? = d.file_content[d.file_offset_page_begin + i]?) →
    d.active_page_size ≤ d.target_page_size →
    d.target_page_size ≤ d.read_buffer.length →
    0 < d.target_page_size →
    d.file_offset_page_end ≤ d.file_content.length →
    d.file_offset_page_begin + d.read_buffer_offset + size ≤ d.file_content.length →
    size ≤ d.active_page_size - d.read_buffer_offset + (fuel - 1) * d.target_page_size →
    0 < fuel →
    d.file_offset_page_end + fuel * d.target_page_size + size < two64 →
    ∃ d', Deserializer.read_go fuel d size acc =
      .ok (acc ++
        listSlice d.file_content (d.file_offset_page_begin + d.read_buffer_offset) size, d') := by
  intro fuel
  induction fuel with
  | zero =>
    intro d size acc _ _ _ _ _ _ _ _ _ _ hpos _
    exact absurd hpos (lt_irrefl 0)
  | succ n ih =>
    intro d size acc H1 H2 H3 H4 H5 H6 H7 H8 H9 H10 _ H12
    rw [Nat.succ_mul] at H12
    rw [show n + 1 - 1 = n from rfl] at H10
    have hrs_lt : d.read_buffer_offset + size < two64 := by omega
    rw [Deserializer.read_go, mod64_id hrs_lt]
    by_cases hc : d.read_buffer_offset + size > d.active_page_size
    · rw [if_pos hc, sub64_of_le H3 (by omega),
        if_pos (show d.read_buffer_offset + (d.active_page_size - d.read_buffer_offset) ≤
          d.read_buffer.length from by omega),
        sub64_of_le (show d.active_page_size - d.read_buffer_offset ≤ size from by omega)
          (by omega),
        read_page_eq]
      dsimp only
      set n0 := min d.target_page_size (d.file_content.length - d.file_pos) with hn0
      have hminl : n0 ≤ d.target_page_size := Nat.min_le_left _ _
      have hminr : n0 ≤ d.file_content.length - d.file_pos := Nat.min_le_right _ _
      have hminc : n0 = d.target_page_size ∨ n0 = d.file_content.length - d.file_pos :=
        min_choice _ _
      have hn_pos : 0 < n := by
        by_cases hn : n = 0
        · subst hn; simp at H10; omega
        · omega
      have hmul : n * d.target_page_size =
          (n - 1) * d.target_page_size + d.target_page_size := by
        conv_lhs => rw [← Nat.succ_pred_eq_of_pos hn_pos]
        rw [Nat.succ_mul, Nat.pred_eq_sub_one]
      have hins : ¬ (n0 < d.target_page_size ∧
          n0 < size - (d.active_page_size - d.read_buffer_offset)) := by
        rintro ⟨hlt, hlt2⟩
        omega
      rw [if_neg hins, mod64_id (show d.file_offset_page_end + n0 < two64 from by omega)]
      have hchunk : (d.read_buffer.drop d.read_buffer_offset).take
          (d.active_page_size - d.read_buffer_offset) =
          listSlice d.file_content (d.file_offset_page_begin + d.read_buffer_offset)
            (d.active_page_size - d.read_buffer_offset) :=
        slice_eq_of_window H4 (by omega)
      have hwin' : ∀ i, i < n0 →
          ((d.file_content.drop d.file_pos).take n0 ++ d.read_buffer.drop n0)[i]? =
            d.file_content[d.file_offset_page_end + i]? := by
        intro i hi
        rw [List.getElem?_append_left (by
          rw [List.length_take, List.length_drop]
          omega)]
        rw [takeDrop_eq_listSlice, listSlice_getElem?, if_pos hi, H1]
      have hassemble :
          (acc ++ (d.read_buffer.drop d.read_buffer_offset).take
            (d.active_page_size - d.read_buffer_offset)) ++
              listSlice d.file_content (d.file_offset_page_end + 0)
                (size - (d.active_page_size - d.read_buffer_offset)) =
            acc ++ listSlice d.file_content
              (d.file_offset_page_begin + d.read_buffer_offset) size := by
        rw [hchunk, List.append_assoc]
        congr 1
        rw [Nat.add_zero,
          show d.file_offset_page_end = (d.file_offset_page_begin + d.read_buffer_offset) +
            (d.active_page_size - d.read_buffer_offset) from by omega,
          listSlice_append _ _ _ _ (by omega)]
        congr 1
        omega
      by_cases hfull : n0 = d.target_page_size
      · rw [← hassemble]
        apply ih
        · dsimp only; omega
        · dsimp only; omega
        · dsimp only; omega
        · intro i hi
          dsimp only at hi
          exact hwin' i (by omega)
        · dsimp only; omega
        · dsimp only
          rw [List.length_append, List.length_take, List.length_drop, List.length_drop]
          omega
        · dsimp only; omega
        · dsimp only; omega
        · dsimp only; omega
        · dsimp only; omega
        · exact hn_pos
        · dsimp only; omega
      · have hshort : n0 < d.target_page_size := by omega
        have hs2le : size - (d.active_page_size - d.read_buffer_offset) ≤ n0 := by
          by_cases hx : n0 < size - (d.active_page_size - d.read_buffer_offset)
          · exact absurd ⟨hshort, hx⟩ hins
          · omega
        cases n with
        | zero => exact absurd hn_pos (lt_irrefl 0)
        | succ m =>
          rw [Deserializer.read_go]
          dsimp only
          rw [Nat.zero_add,
            mod64_id (show size - (d.active_page_size - d.read_buffer_offset) < two64 from
              by omega),
            if_neg (show ¬ size - (d.active_page_size - d.read_buffer_offset) >
              d.target_page_size from by omega),
            if_pos (show size - (d.active_page_size - d.read_buffer_offset) ≤
              ((d.file_content.drop d.file_pos).take n0 ++ d.read_buffer.drop n0).length from by
                rw [List.length_append, List.length_take, List.length_drop, List.length_drop]
                omega)]
          have hbytes : (((d.file_content.drop d.file_pos).take n0 ++
              d.read_buffer.drop n0).drop 0).take
                (size - (d.active_page_size - d.read_buffer_offset)) =
              listSlice d.file_content (d.file_offset_page_end + 0)
                (size - (d.active_page_size - d.read_buffer_offset)) :=
            slice_eq_of_window hwin' (by omega)
          rw [← hassemble, ← hbytes]
          exact ⟨_, rfl⟩
    · rw [if_neg hc,
        if_pos (show d.read_buffer_offset + size ≤ d.read_buffer.length from by omega)]
      have hbytes : (d.read_buffer.drop d.read_buffer_offset).take size =
          listSlice d.file_content (d.file_offset_page_begin + d.read_buffer_offset) size :=
        slice_eq_of_window H4 (by omega)
      rw [← hbytes]
      exact ⟨_, rfl⟩

end ReadDataLemmas

/-- C1: the specification's concrete scenario demands that, with target page
size 4 over the 6-byte resource `[A,B,C,D,E,F]` (here the bytes `10`..`15`),
the first `read(3)` returns `[A,B,C]`.  The code cannot perform it: the
constructor leaves `_read_buffer_offset = page_size = 4` with
`_active_page_size = 0`, so the refill loop computes
`lead = _active_page_size - _read_buffer_offset = 0 - 4`, which wraps to
`2^64 - 4` in `uint64_t`, and the `memcpy` from `_read_buffer` reads far out
of bounds (undefined behavior, surfaced by the model as `outOfBounds`). -/
theorem c1_first_read_out_of_bounds :
    Deserializer.make sampleFile 4 = .ok sampleD0 ∧
    sampleD0.read_buffer_offset = 4 ∧
    sampleD0.active_page_size = 0 ∧
    sampleD0.read 3 = .error .outOfBounds := by
  decide

/-- C2 counterexample: the invariant `buffer_cursor ≤ active_page_size` is
violated immediately after construction, where `_read_buffer_offset` is the
page size 4 but `_active_page_size` is 0. -/
theorem c2_counterexample :
    Deserializer.make sampleFile 4 = .ok sampleD0 ∧
    ¬ (sampleD0.read_buffer_offset ≤ sampleD0.active_page_size) := by
  decide

/-- C2 (amended): `0 ≤ buffer_cursor ≤ active_page_size` holds after every
successful `read`, `read_aligned`, `set_offset` and page refill, and
`set_page_size` leaves both fields unchanged (hence preserves the invariant
when it already holds) — but the claim's "immediately after construction"
part fails (see the counterexample), where `buffer_cursor = page_size`
exceeds `active_page_size = 0`. -/
theorem c2_cursor_invariant :
    (∀ (d : Deserializer) (n : Nat) (bs : List Nat) (d' : Deserializer),
      d.read n = .ok (bs, d') →
      d'.read_buffer_offset ≤ d'.active_page_size) ∧
    (∀ (d : Deserializer) (n a : Nat) (bs : List Nat) (d' : Deserializer),
      d.read_aligned n a = .ok (bs, d') →
      d'.read_buffer_offset ≤ d'.active_page_size) ∧
    (∀ (d : Deserializer) (pos : Nat),
      (d.set_offset pos).read_buffer_offset ≤ (d.set_offset pos).active_page_size) ∧
    (∀ d : Deserializer,
      (d.read_page).2.read_buffer_offset ≤ (d.read_page).2.active_page_size) ∧
    (∀ (d : Deserializer) (n : Nat) (d' : Deserializer),
      d.set_page_size n = .ok d' →
      d'.read_buffer_offset = d.read_buffer_offset ∧
      d'.active_page_size = d.active_page_size) := by
  refine ⟨fun _ _ _ _ h => read_ok_cursor_le h,
    fun _ _ _ _ _ h => read_aligned_ok_cursor_le h,
    set_offset_cursor_le, read_page_cursor_le, ?_⟩
  intro d n d' h
  unfold Deserializer.set_page_size at h
  split at h
  · simp at h
  · simp only [Except.ok.injEq] at h
    subst h
    exact ⟨rfl, rfl⟩

/-- C2 witness: a concrete successful read lands in a state satisfying the
invariant. -/
theorem c2_cursor_invariant_witness :
    (sampleD0.set_offset 0).read 4 = .ok ([10, 11, 12, 13], sampleMid) ∧
    sampleMid.read_buffer_offset ≤ sampleMid.active_page_size :=
  ⟨by decide,
   c2_cursor_invariant.1 (sampleD0.set_offset 0) 4 [10, 11, 12, 13] sampleMid (by decide)⟩

/-- C3: at the reachable state `sampleMid` (page `[0,4)` buffered and fully
consumed, 2 bytes left in the file) the refill obtains 2 bytes, and the code
does set `page_begin = 4` (the old `page_end`), `page_end = 6` (advanced by
the obtained size), `buffer_cursor = 0`, with EOF flagged — but
`active_page_size` stays at the target 4 instead of becoming the obtained 2:
the local `size = n;` in `_read_page` never writes the member back, so the
claim's "active_page_size equals the number of bytes actually obtained"
fails. -/
theorem c3_short_refill_keeps_target_active :
    (sampleD0.set_offset 0).read 4 = .ok ([10, 11, 12, 13], sampleMid) ∧
    (sampleMid.read_page).1 = 2 ∧
    (sampleMid.read_page).2.active_page_size = 4 ∧
    ¬ ((sampleMid.read_page).2.active_page_size = (sampleMid.read_page).1) ∧
    (sampleMid.read_page).2.file_offset_page_begin = 4 ∧
    (sampleMid.read_page).2.file_offset_page_end = 6 ∧
    (sampleMid.read_page).2.read_buffer_offset = 0 ∧
    (sampleMid.read_page).2.is_eof = true := by
  decide

/-- C4 counterexample: from the reachable state `c4_pre` (a slow-path
`set_offset(5)` on `sampleMid`), `get_offset()` reports 9 while a subsequent
`read(1)` succeeds and leaves `get_offset() = 6 ≠ 9 + 1`: a successful
1-byte read after a slow-path seek does not advance the reported offset
by 1. -/
theorem c4_counterexample :
    Deserializer.make sampleFile 4 = .ok sampleD0 ∧
    (sampleD0.set_offset 0).read 4 = .ok ([10, 11, 12, 13], sampleMid) ∧
    c4_pre.get_offset = 9 ∧
    c4_pre.read 1 = .ok ([15], sampleAfterSeekRead) ∧
    sampleAfterSeekRead.get_offset = 6 ∧
    ¬ (sampleAfterSeekRead.get_offset = c4_pre.get_offset + 1) := by
  decide

/-- C4 (amended): every successful `Serializer::write` of `n` bytes advances
the offset by exactly `n` in `uint64_t` arithmetic; and every successful
non-aligned `Deserializer::read` of `n` bytes advances `get_offset()` by
exactly `n` — including reads that span page refills — provided the starting
state's buffered page is current, i.e. `page_end = page_begin +
active_page_size` and `buffer_cursor ≤ active_page_size` (after a slow-path
seek or a short final-page refill the page is not current and the claim
fails, see the counterexample), and no `uint64_t` overflow occurs. -/
theorem c4_offset_monotonic :
    (∀ (s : Serializer) (data : List Nat),
      (s.write data).offset = (s.offset + data.length) % two64) ∧
    (∀ (d : Deserializer) (n : Nat) (bs : List Nat) (d' : Deserializer),
      d.file_offset_page_end = d.file_offset_page_begin + d.active_page_size →
      d.read_buffer_offset ≤ d.active_page_size →
      d.file_offset_page_end + (n + 2) * d.target_page_size + n < two64 →
      d.read n = .ok (bs, d') →
      d'.get_offset = d.get_offset + n) := by
  refine ⟨fun s data => rfl, ?_⟩
  intro d n bs d' h1 h2 h3 h4
  have hoff := read_go_offset (n + 2) d n [] bs d' h1 h2 h3 h4
  unfold Deserializer.get_offset
  rw [hoff, mod64_id (by omega), mod64_id (by omega)]

/-- C4 witness: a concrete successful 4-byte read advancing `get_offset`
from 0 to 4. -/
theorem c4_offset_monotonic_witness :
    (sampleD0.set_offset 0).file_offset_page_end =
      (sampleD0.set_offset 0).file_offset_page_begin +
        (sampleD0.set_offset 0).active_page_size ∧
    (sampleD0.set_offset 0).read_buffer_offset ≤
      (sampleD0.set_offset 0).active_page_size ∧
    (sampleD0.set_offset 0).file_offset_page_end +
      (4 + 2) * (sampleD0.set_offset 0).target_page_size + 4 < two64 ∧
    (sampleD0.set_offset 0).read 4 = .ok ([10, 11, 12, 13], sampleMid) ∧
    sampleMid.get_offset = (sampleD0.set_offset 0).get_offset + 4 :=
  ⟨by decide, by decide, by decide, by decide,
   c4_offset_monotonic.2 (sampleD0.set_offset 0) 4 [10, 11, 12, 13] sampleMid
     (by decide) (by decide) (by decide) (by decide)⟩

/-- C5: write/read round trip.  A fixed-layout (POD) value with a stable byte
representation is its byte list `bs`; writing it with the Serializer at
offset `o` (seek then write) and then reading `bs.length` bytes back from
offset `o` through a fresh Deserializer with any positive page size `p`
returns exactly `bs`, for every starting file content `f0` (the bound rules
out `uint64_t` overflow of the involved offsets). -/
theorem c5_roundtrip (f0 bs : List Nat) (o p : Nat) (hp : 0 < p)
    (hW : o + (bs.length + 2) * p + bs.length < two64) :
    readBack (writeAt f0 o bs).file_content o p bs.length = some bs := by
  have hlen := storeBytes_length f0 o bs
  have hfc : (writeAt f0 o bs).file_content = storeBytes f0 o bs := rfl
  rw [hfc]
  have hmk : Deserializer.make (storeBytes f0 o bs) p =
      .ok ⟨p, 0, 0, 0, p, List.replicate p 0, storeBytes f0 o bs, 0, false⟩ := by
    unfold Deserializer.make
    rw [if_neg (by omega)]
  have hset : (⟨p, 0, 0, 0, p, List.replicate p 0, storeBytes f0 o bs, 0, false⟩ :
      Deserializer).set_offset o =
      ⟨p, 0, o, o, 0, List.replicate p 0, storeBytes f0 o bs, o, false⟩ := by
    unfold Deserializer.set_offset
    rw [if_neg (by simp)]
  obtain ⟨d', hread⟩ := read_go_data (bs.length + 2)
    ⟨p, 0, o, o, 0, List.replicate p 0, storeBytes f0 o bs, o, false⟩ bs.length []
    rfl
    (by dsimp only; omega)
    (Nat.le_refl 0)
    (by intro i hi; dsimp only at hi; exact absurd hi (Nat.not_lt_zero i))
    (Nat.zero_le p)
    (by simp)
    hp
    (by dsimp only; rw [hlen]; omega)
    (by dsimp only; rw [hlen]; omega)
    (by
      dsimp only
      rw [show bs.length + 2 - 1 = bs.length + 1 from rfl]
      have h2 : bs.length + 1 ≤ (bs.length + 1) * p := Nat.le_mul_of_pos_right _ hp
      omega)
    (by omega)
    (by dsimp only; omega)
  unfold readBack
  rw [hmk]
  dsimp only
  rw [hset, Deserializer.read, hread]
  dsimp only
  rw [List.nil_append, Nat.add_zero, storeBytes_slice]

/-- C5 witness: writing `[7, 8]` at offset 1 of an empty file and reading it
back with page size 2 returns `[7, 8]`. -/
theorem c5_roundtrip_witness :
    (0 < 2) ∧ (1 + (2 + 2) * 2 + 2 < two64) ∧
    readBack (writeAt [] 1 [7, 8]).file_content 1 2 2 = some [7, 8] :=
  ⟨by decide, by decide, c5_roundtrip [] [7, 8] 1 2 (by decide) (by decide)⟩

/-- C6: after `write_aligned(data, alignment)` with `0 < alignment`, the
padding `alignPad s.offset alignment` inserted before the data is at most
`alignment - 1` bytes, the offset at which the data bytes begin is divisible
by `alignment`, every padding byte written to the file is zero, and the data
itself lands immediately after the padding (the file-position hypothesis
reflects that a Serializer only moves the `FILE` position through its own
seeks and writes, which keep it equal to `_offset`). -/
theorem c6_write_aligned (s : Serializer) (data : List Nat) (a : Nat) (ha : 0 < a)
    (hW : s.offset + a < two64) (hfp : s.file_pos = s.offset) :
    alignPad s.offset a ≤ a - 1 ∧
    ((s.offset + alignPad s.offset a) % two64) % a = 0 ∧
    (s.write_aligned data a).offset =
      (s.offset + alignPad s.offset a + data.length) % two64 ∧
    (∀ i, i < alignPad s.offset a →
      ((s.write_aligned data a).file_content)[s.offset + i]? = some 0) ∧
    listSlice (s.write_aligned data a).file_content (s.offset + alignPad s.offset a)
      data.length = data := by
  have hwa : s.write_aligned data a =
      (s.write (List.replicate (alignPad s.offset a) 0)).write data := by
    unfold Serializer.write_aligned alignPad
    by_cases hm : s.offset % a = 0
    · rw [if_neg (by simpa using hm), hm, Nat.sub_zero, Nat.mod_self]
      rw [write_write, List.replicate_zero, List.nil_append]
    · rw [if_pos hm, pad_loop_eq_write,
        Nat.mod_eq_of_lt (show a - s.offset % a < a from by
          have := Nat.mod_lt s.offset ha
          omega)]
  have hpad_lt : alignPad s.offset a < a := by
    unfold alignPad
    exact Nat.mod_lt _ ha
  have hdiv : (s.offset + alignPad s.offset a) % a = 0 := by
    unfold alignPad
    by_cases hm : s.offset % a = 0
    · rw [hm, Nat.sub_zero, Nat.mod_self, Nat.add_zero]
      exact hm
    · have hmlt : s.offset % a < a := Nat.mod_lt _ ha
      rw [Nat.mod_eq_of_lt (show a - s.offset % a < a from by omega)]
      have hdm := Nat.div_add_mod s.offset a
      rw [show s.offset + (a - s.offset % a) = (s.offset / a + 1) * a from by
        rw [Nat.succ_mul]
        have hcomm : s.offset / a * a = a * (s.offset / a) := Nat.mul_comm _ _
        omega]
      exact Nat.mul_mod_left _ _
  refine ⟨by omega, by rw [mod64_id (by omega)]; exact hdiv, ?_, ?_, ?_⟩
  · rw [hwa]
    simp only [Serializer.write, List.length_replicate]
    rw [Nat.mod_add_mod]
  · intro i hi
    rw [hwa]
    simp only [Serializer.write, List.length_replicate]
    rw [hfp]
    rw [storeBytes_getElem?_lt (show s.offset + i < s.offset + alignPad s.offset a from
      by omega)]
    rw [if_pos (by rw [storeBytes_length, List.length_replicate]; omega)]
    rw [storeBytes_getElem?_mid (Nat.le_add_right _ _) (by
      rw [List.length_replicate]
      omega)]
    rw [Nat.add_sub_cancel_left, List.getElem?_replicate, if_pos hi]
  · rw [hwa]
    simp only [Serializer.write, List.length_replicate]
    rw [hfp]
    exact storeBytes_slice _ _ _

/-- C6 witness: writing `[7]` aligned to 4 from offset 3 pads with a single
zero byte, so the data begins at offset 4. -/
theorem c6_write_aligned_witness :
    (0 < 4) ∧ ((3 : Nat) + 4 < two64) ∧
    (alignPad 3 4 ≤ 4 - 1 ∧
     ((3 + alignPad 3 4) % two64) % 4 = 0 ∧
     (Serializer.write_aligned ⟨3, [1, 2, 3], 3⟩ [7] 4).offset =
       (3 + alignPad 3 4 + [7].length) % two64 ∧
     (∀ i, i < alignPad 3 4 →
       ((Serializer.write_aligned ⟨3, [1, 2, 3], 3⟩ [7] 4).file_content)[3 + i]? = some 0) ∧
     listSlice (Serializer.write_aligned ⟨3, [1, 2, 3], 3⟩ [7] 4).file_content
       (3 + alignPad 3 4) [7].length = [7]) :=
  ⟨by decide, by decide, c6_write_aligned ⟨3, [1, 2, 3], 3⟩ [7] 4 (by decide) (by decide) rfl⟩

/-- C7: a fast-path `set_offset(pos)` (with `pos` inside the buffered page)
updates only `buffer_cursor` (to `pos - page_begin`), performs no underlying
I/O (the modeled file position, EOF flag and file content are untouched,
as are all other state fields), and `get_offset()` reports `pos`
afterward. -/
theorem c7_fast_seek (d : Deserializer) (pos : Nat)
    (h : d.file_offset_page_begin ≤ pos ∧
      pos < (d.file_offset_page_begin + d.active_page_size) % two64) :
    d.set_offset pos = { d with read_buffer_offset := pos - d.file_offset_page_begin } ∧
    (d.set_offset pos).file_pos = d.file_pos ∧
    (d.set_offset pos).file_eof = d.file_eof ∧
    (d.set_offset pos).file_content = d.file_content ∧
    (d.set_offset pos).get_offset = pos := by
  have h1 : d.set_offset pos =
      { d with read_buffer_offset := pos - d.file_offset_page_begin } := by
    unfold Deserializer.set_offset
    rw [if_pos h]
  refine ⟨h1, by rw [h1], by rw [h1], by rw [h1], ?_⟩
  rw [h1]
  unfold Deserializer.get_offset
  dsimp only
  rw [Nat.add_sub_cancel' h.1, mod64_id (lt_trans h.2 (mod64_lt _))]

/-- C7 witness: seeking to 3 inside the buffered page `[1, 5)` of
`sampleShifted` only moves the cursor and reports offset 3. -/
theorem c7_fast_seek_witness :
    (sampleShifted.file_offset_page_begin ≤ 3 ∧
      3 < (sampleShifted.file_offset_page_begin + sampleShifted.active_page_size) % two64) ∧
    (sampleShifted.set_offset 3 =
      { sampleShifted with
        read_buffer_offset := 3 - sampleShifted.file_offset_page_begin } ∧
     (sampleShifted.set_offset 3).file_pos = sampleShifted.file_pos ∧
     (sampleShifted.set_offset 3).file_eof = sampleShifted.file_eof ∧
     (sampleShifted.set_offset 3).file_content = sampleShifted.file_content ∧
     (sampleShifted.set_offset 3).get_offset = 3) :=
  ⟨by decide, c7_fast_seek sampleShifted 3 (by decide)⟩

/-- C8 counterexample: at the reachable state `sampleShifted` (page begins at
stream offset 1, cursor at buffer offset 2, logical offset 3) the code's
`read_aligned(1, 4)` returns the byte at stream offset 5 (`F` = 15), whereas
the claim's padding rule — `pad = (4 - get_offset() % 4) % 4 = 1`, then
advance and `read(1)` — would return the byte at stream offset 4 (`E` = 14):
the implementation pads from `buffer_cursor`, not from the logical
offset. -/
theorem c8_counterexample :
    Deserializer.make sampleFile 4 = .ok sampleD0 ∧
    (sampleD0.set_offset 1).read 2 = .ok ([11, 12], sampleShifted) ∧
    sampleShifted.get_offset = 3 ∧
    (sampleShifted.read_aligned 1 4).toOption.map Prod.fst = some [15] ∧
    (sampleShifted.read_aligned_spec 1 4).toOption.map Prod.fst = some [14] ∧
    sampleShifted.read_aligned 1 4 ≠ sampleShifted.read_aligned_spec 1 4 := by
  decide

/-- C8 (amended): `read_aligned(size, alignment)` computes the padding from
the buffer cursor — `pad = (alignment - buffer_cursor % alignment) %
alignment` — not from the logical offset; when `buffer_cursor + pad` would
exceed `active_page_size` (and `pad ≠ 0`) exactly one page refill is forced,
discarding the stale tail, before `read(size)`; otherwise the cursor simply
advances by `pad` before the read. -/
theorem c8_read_aligned_pad (d : Deserializer) (size a : Nat) (ha : 0 < a)
    (hW : d.read_buffer_offset + a < two64) :
    d.read_aligned size a =
      if d.read_buffer_offset + alignPad d.read_buffer_offset a > d.active_page_size ∧
          alignPad d.read_buffer_offset a ≠ 0 then
        (d.read_page).2.read size
      else
        ({ d with read_buffer_offset :=
            d.read_buffer_offset + alignPad d.read_buffer_offset a }).read size := by
  unfold Deserializer.read_aligned alignPad
  by_cases hm : d.read_buffer_offset % a = 0
  · rw [if_neg (by simpa using hm), hm, Nat.sub_zero, Nat.mod_self,
      if_neg (by simp)]
    simp only [Nat.add_zero]
  · have hmlt : d.read_buffer_offset % a < a := Nat.mod_lt _ ha
    have hpad : (a - d.read_buffer_offset % a) % a = a - d.read_buffer_offset % a :=
      Nat.mod_eq_of_lt (by omega)
    rw [if_pos hm, hpad, mod64_id (by omega)]
    by_cases hgt :
        d.read_buffer_offset + (a - d.read_buffer_offset % a) > d.active_page_size
    · rw [if_pos hgt, if_pos ⟨hgt, by omega⟩]
    · rw [if_neg hgt, if_neg (fun hand => hgt hand.1)]

/-- C8 witness: the amended padding rule applied at the concrete state
`sampleShifted`. -/
theorem c8_read_aligned_pad_witness :
    (0 < 4) ∧ (sampleShifted.read_buffer_offset + 4 < two64) ∧
    sampleShifted.read_aligned 1 4 =
      (if sampleShifted.read_buffer_offset +
            alignPad sampleShifted.read_buffer_offset 4 >
            sampleShifted.active_page_size ∧
          alignPad sampleShifted.read_buffer_offset 4 ≠ 0 then
        (sampleShifted.read_page).2.read 1
      else
        ({ sampleShifted with read_buffer_offset := sampleShifted.read_buffer_offset + alignPad sampleShifted.read_buffer_offset 4 }).read 1) :=
  ⟨by decide, by decide, c8_read_aligned_pad sampleShifted 1 4 (by decide) (by decide)⟩

/-- C9: the intended destructor behavior — modeled with the collection member
`close` that `DestructorExceptions` declares, since the destructor bodies in
the source address a nonexistent member `exceptions` and do not compile as
written — appends exactly one record identifying the resource to the bound
sink when the owned handle's close fails, appends nothing otherwise, and
(being a total function) never propagates the failure. -/
theorem c9_deferred_close :
    (∀ (sink : List String) (fn : String),
      destructorClose sink true true fn = sink ++ [fn]) ∧
    (∀ (sink : List String) (fn : String),
      (destructorClose sink true true fn).length = sink.length + 1) ∧
    (∀ (sink : List String) (fn : String), destructorClose sink true false fn = sink) ∧
    (∀ (sink : List String) (fn : String), destructorClose sink false true fn = sink) := by
  refine ⟨fun sink fn => rfl, fun sink fn => ?_, fun sink fn => rfl, fun sink fn => rfl⟩
  simp [destructorClose]

/-- C10: `get_offset()` reports `page_begin + buffer_cursor`, which lies
until the next refill: immediately after construction with page size `p` it
returns `p` rather than 0; immediately after a slow-path `set_offset(pos)` it
returns `pos + active_page_size` rather than `pos` (so it equals `pos` only
when `active_page_size = 0`); and once the next page refill has run it
reports `pos`. -/
theorem c10_get_offset :
    (∀ (f : List Nat) (p : Nat) (d0 : Deserializer), 0 < p → p < two64 →
      Deserializer.make f p = .ok d0 → d0.get_offset = p) ∧
    (∀ (d : Deserializer) (pos : Nat),
      ¬ (d.file_offset_page_begin ≤ pos ∧
          pos < (d.file_offset_page_begin + d.active_page_size) % two64) →
      pos + d.active_page_size < two64 →
      (d.set_offset pos).get_offset = pos + d.active_page_size) ∧
    (∀ (d : Deserializer) (pos : Nat),
      ¬ (d.file_offset_page_begin ≤ pos ∧
          pos < (d.file_offset_page_begin + d.active_page_size) % two64) →
      pos < two64 →
      ((d.set_offset pos).read_page).2.get_offset = pos) := by
  refine ⟨?_, ?_, ?_⟩
  · intro f p d0 hp hpW hmk
    unfold Deserializer.make at hmk
    rw [if_neg (by omega)] at hmk
    simp only [Except.ok.injEq] at hmk
    subst hmk
    unfold Deserializer.get_offset
    dsimp only
    rw [Nat.zero_add, mod64_id hpW]
  · intro d pos hslow hW
    unfold Deserializer.set_offset
    rw [if_neg hslow]
    unfold Deserializer.get_offset
    dsimp only
    rw [mod64_id hW]
  · intro d pos hslow hpos
    unfold Deserializer.set_offset
    rw [if_neg hslow, read_page_eq]
    unfold Deserializer.get_offset
    dsimp only
    rw [Nat.add_zero, mod64_id hpos]

/-- C10 witness: construction with page size 4 reports offset 4; a slow seek
of `sampleMid` to 5 reports 9 = 5 + 4, and reports 5 only after the next
refill. -/
theorem c10_get_offset_witness :
    (0 < 4) ∧ ((4 : Nat) < two64) ∧ Deserializer.make sampleFile 4 = .ok sampleD0 ∧
    sampleD0.get_offset = 4 ∧
    (sampleMid.set_offset 5).get_offset = 5 + sampleMid.active_page_size ∧
    ((sampleMid.set_offset 5).read_page).2.get_offset = 5 :=
  ⟨by decide, by decide, by decide,
   c10_get_offset.1 sampleFile 4 sampleD0 (by decide) (by decide) (by decide),
   c10_get_offset.2.1 sampleMid 5 (by decide) (by decide),
   c10_get_offset.2.2 sampleMid 5 (by decide) (by decide)⟩

end Pickaxe
